import Mathlib

/-!
Verification of the `Xtinc/enum` enum/string association library.

The repository contains two variants of the same header:

* `src/enum.h` — the table is a `std::array<std::string, N>` rebuilt by
  `EnumMetaInfo<E>::Info()` on every call (`to_array` over the declared
  literals); `enum_to_string` returns the empty string when the index is
  out of range and `enum_from_string` returns `E{}` (underlying value 0)
  when the name is not found.
* `src/unnamed/part_000` — the table is a `static std::vector<std::string>`;
  `enum_strings::to_string` and `enum_strings::from_string` throw
  `std::invalid_argument` on the out-of-range and not-found paths.

The shallow embedding models an enum value by its underlying integer value
(as a `Nat`: the conversions cast the enum to its underlying type and
compare against the table length, and negative values fall into C++
undefined behaviour, outside the embedding; table lengths are assumed to
fit the underlying type, so the C++ casts are value preserving).  A name
table is a `List String` in declaration order.  A thrown
`std::invalid_argument` is an `Except.error` carrying the call site that
threw it and the exact message string the C++ code builds.
-/

/-- Default string used to model C++ indexing where the index is already
known to be in bounds. -/
def dflt : String := ""

/-- `to_array` / `to_array_impl` from `src/enum.h`: the braced pack
expansion builds element `i` of the output from element `i` of the input
literal list, for `i` in `make_index_sequence<N>`. -/
def to_array (a : List String) : List String :=
  (List.range a.length).map fun i => a.getD i dflt

/-- The specialized `EnumMetaInfo<E>::Info()` generated by `ENUM_STRINGS`
in `src/enum.h`: returns `to_array<std::string>({names...})`, rebuilt on
every call. -/
def EnumMetaInfo.Info (names : List String) : List String := to_array names

/-- The primary-template `EnumMetaInfo<T>::Info()` of `src/enum.h`, used
when no `ENUM_STRINGS` association was declared for the type: it returns
`std::array<std::string, 0>{}`. -/
def EnumMetaInfo.defaultInfo : List String := []

/-- The linear scan shared by both `from_string` variants:
`size_t n = 0; while (n < size && table[n] != s) ++n;`.
Returns the first index whose entry equals `s`, or the length of the
table when no entry does. -/
def scan : List String → String → Nat
  | [], _ => 0
  | x :: xs, s => if x = s then 0 else scan xs s + 1

/-- `enum_to_string` from `src/enum.h`: out-of-range indices yield
`std::string{}` (the empty string); in-range indices yield
`string_list[index]`.  (`string_list.max_size()` of a
`std::array<std::string, N>` is `N`, the table length.) -/
def enum_to_string (names : List String) (index : Nat) : String :=
  let string_list := EnumMetaInfo.Info names
  if string_list.length ≤ index then dflt else string_list.getD index dflt

/-- `enum_from_string` from `src/enum.h`: linear scan; when the name is
not found the function returns `E{}`, whose underlying value is 0. -/
def enum_from_string (names : List String) (s : String) : Nat :=
  let string_list := EnumMetaInfo.Info names
  let n := scan string_list s
  if n = string_list.length then 0 else n

/-- Which conversion routine threw the `std::invalid_argument`: the
out-of-range check of `to_string` or the not-found check of
`from_string`.  Both throw the same C++ exception type; the constructor
records the call site, the payload the exact message. -/
inductive EnumError where
  | outOfRange (msg : String)
  | unknownName (msg : String)
  deriving DecidableEq, Repr

/-- The message built by `enum_strings::to_string` in
`src/unnamed/part_000`: `"Invalid value " + std::to_string(index) + ". "
"Valid range is 0.." + std::to_string(strings.size() - 1)`.  The
subtraction is on `size_t`, so an empty table wraps modulo `2^64`. -/
def outOfRangeMsg (index len : Nat) : String :=
  "Invalid value " ++ toString index ++ ". Valid range is 0.." ++
    toString ((len + (2 ^ 64 - 1)) % 2 ^ 64)

/-- The message built by `enum_strings::from_string` in
`src/unnamed/part_000`:
`"'" + s + "' is not a valid string representation of this type"`. -/
def unknownNameMsg (s : String) : String :=
  "\x27" ++ s ++ "\x27 is not a valid string representation of this type"

namespace enum_strings

/-- `enum_strings::to_string` from `src/unnamed/part_000`: throws
`std::invalid_argument` when `index >= strings.size()`, otherwise returns
`strings[index]`. -/
def to_string (names : List String) (index : Nat) : Except EnumError String :=
  if names.length ≤ index then
    .error (.outOfRange (outOfRangeMsg index names.length))
  else
    .ok (names.getD index dflt)

/-- `enum_strings::from_string` from `src/unnamed/part_000`: linear scan;
throws `std::invalid_argument` when the name is not found, otherwise
returns `static_cast<E>(n)`. -/
def from_string (names : List String) (s : String) : Except EnumError Nat :=
  let n := scan names s
  if n = names.length then .error (.unknownName (unknownNameMsg s)) else .ok n

end enum_strings

/-- The `operator>>` generated by `ENUM_STRINGS` in `src/unnamed/part_000`:
`std::string s; is >> s; e = ::enum_strings::from_string<E>(s);`.
The token read from the stream is modelled as an `Option String`; when the
source cannot supply a token (`none`), C++11 stream extraction leaves `s`
value-initialized (empty), and `from_string` is called on it regardless. -/
def stream_extract (names : List String) (tok : Option String) : Except EnumError Nat :=
  enum_strings.from_string names (tok.getD dflt)

/-- The `operator>>` generated by `ENUM_STRINGS` in `src/enum.h`: same
shape, delegating to `enum_from_string`. -/
def stream_extract_h (names : List String) (tok : Option String) : Nat :=
  enum_from_string names (tok.getD dflt)

/-! ### Helper lemmas about `scan` and `to_array` -/

theorem scan_le_length (l : List String) (s : String) : scan l s ≤ l.length := by
  induction l with
  | nil => simp [scan]
  | cons x xs ih =>
    simp only [scan, List.length_cons]
    split
    · omega
    · omega

theorem scan_eq_length_of_not_mem (l : List String) (s : String) (h : s ∉ l) :
    scan l s = l.length := by
  induction l with
  | nil => simp [scan]
  | cons x xs ih =>
    simp only [List.mem_cons, not_or] at h
    simp only [scan, List.length_cons]
    split
    · rename_i hx
      exact absurd hx.symm h.1
    · rw [ih h.2]

theorem scan_lt_length_of_mem (l : List String) (s : String) (h : s ∈ l) :
    scan l s < l.length := by
  induction l with
  | nil => simp at h
  | cons x xs ih =>
    simp only [scan, List.length_cons]
    split
    · omega
    · rename_i hx
      have hs : s ∈ xs := by
        rcases List.mem_cons.mp h with h1 | h1
        · exact absurd h1.symm hx
        · exact h1
      have := ih hs
      omega

theorem getD_scan (l : List String) (s : String) (h : s ∈ l) :
    l.getD (scan l s) dflt = s := by
  induction l with
  | nil => simp at h
  | cons x xs ih =>
    simp only [scan]
    split
    · rename_i hx
      simpa using hx
    · rename_i hx
      have hs : s ∈ xs := by
        rcases List.mem_cons.mp h with h1 | h1
        · exact absurd h1.symm hx
        · exact h1
      simpa using ih hs

theorem scan_first (l : List String) (s : String) (m : Nat) (h : m < scan l s) :
    l.getD m dflt ≠ s := by
  induction l generalizing m with
  | nil => simp [scan] at h
  | cons x xs ih =>
    simp only [scan] at h
    split at h
    · omega
    · rename_i hx
      cases m with
      | zero => simpa using hx
      | succ m => simpa using ih m (by omega)

theorem scan_getD_of_nodup (l : List String) (i : Nat) (hn : l.Nodup)
    (hi : i < l.length) : scan l (l.getD i dflt) = i := by
  induction l generalizing i with
  | nil => simp at hi
  | cons x xs ih =>
    rcases List.nodup_cons.mp hn with ⟨hx, hxs⟩
    cases i with
    | zero => simp [scan]
    | succ i =>
      have hi' : i < xs.length := by simpa using hi
      have hmem : xs.getD i dflt ∈ xs := by
        rw [List.getD_eq_getElem xs dflt hi']
        exact List.getElem_mem hi'
      have hne : x ≠ xs.getD i dflt := fun he => hx (he ▸ hmem)
      simp only [List.getD_cons_succ, scan, if_neg hne]
      exact congrArg (· + 1) (ih i hxs hi')

theorem to_array_eq (a : List String) : to_array a = a := by
  apply List.ext_getElem
  · simp [to_array]
  · intro i h1 h2
    simp only [to_array, List.getElem_map, List.getElem_range]
    exact List.getD_eq_getElem a dflt h2

theorem enum_to_string_eq_getD (names : List String) (i : Nat)
    (hi : i < names.length) : enum_to_string names i = names.getD i dflt := by
  simp only [enum_to_string, EnumMetaInfo.Info, to_array_eq]
  rw [if_neg (Nat.not_le.mpr hi)]

theorem enum_from_string_eq_scan (names : List String) (s : String)
    (h : s ∈ names) : enum_from_string names s = scan names s := by
  have := scan_lt_length_of_mem names s h
  simp only [enum_from_string, EnumMetaInfo.Info, to_array_eq]
  rw [if_neg (by omega)]

theorem enum_strings_to_string_ok (names : List String) (i : Nat)
    (hi : i < names.length) :
    enum_strings.to_string names i = Except.ok (names.getD i dflt) := by
  simp only [enum_strings.to_string]
  rw [if_neg (Nat.not_le.mpr hi)]

theorem enum_strings_from_string_ok (names : List String) (s : String)
    (h : s ∈ names) :
    enum_strings.from_string names s = Except.ok (scan names s) := by
  have := scan_lt_length_of_mem names s h
  simp only [enum_strings.from_string]
  rw [if_neg (by omega)]

/-! ### Claim theorems -/

/-- C1.  Round-trip: for every name table whose entries are pairwise
distinct and every enumerator whose ordinal `i` lies in `[0, k)`,
`from_string (to_string e) = e`, in both header variants (the `enum.h`
variant on the left conjunct, the `part_000` variant on the right). -/
theorem round_trip (names : List String) (hn : names.Nodup) (i : Nat)
    (hi : i < names.length) :
    enum_from_string names (enum_to_string names i) = i ∧
    (enum_strings.to_string names i).bind
      (fun s => enum_strings.from_string names s) = Except.ok i := by
  have hget : enum_to_string names i = names.getD i dflt :=
    enum_to_string_eq_getD names i hi
  have hmem : names.getD i dflt ∈ names := by
    rw [List.getD_eq_getElem names dflt hi]
    exact List.getElem_mem hi
  have hscan : scan names (names.getD i dflt) = i :=
    scan_getD_of_nodup names i hn hi
  constructor
  · rw [hget, enum_from_string_eq_scan names _ hmem, hscan]
  · rw [enum_strings_to_string_ok names i hi]
    show enum_strings.from_string names (names.getD i dflt) = Except.ok i
    rw [enum_strings_from_string_ok names _ hmem, hscan]

/-- Witness for C1 at the `WeakEnum` table `["wa", "wb"]` and ordinal 1. -/
theorem round_trip_witness :
    (["wa", "wb"] : List String).Nodup ∧
    1 < (["wa", "wb"] : List String).length ∧
    (enum_from_string ["wa", "wb"] (enum_to_string ["wa", "wb"] 1) = 1 ∧
     (enum_strings.to_string ["wa", "wb"] 1).bind
       (fun s => enum_strings.from_string ["wa", "wb"] s) = Except.ok 1) :=
  ⟨by decide, by decide, round_trip ["wa", "wb"] (by decide) 1 (by decide)⟩

/-- C2.  At the concrete failing input — table `["wa", "wb"]`, string
`"zz"` not in the table — the `enum.h` variant does NOT fail: it silently
returns `E{}` (underlying value 0, the default enumerator `A`), contrary
to the claim; the `part_000` variant throws the UnknownName
`std::invalid_argument` carrying the rejected string, as the claim says. -/
theorem from_string_unknown_silent_default :
    enum_from_string ["wa", "wb"] ("zz") = 0 ∧
    enum_strings.from_string ["wa", "wb"] ("zz") =
      Except.error (EnumError.unknownName (unknownNameMsg ("zz"))) :=
  ⟨rfl, rfl⟩

/-- C3.  At the concrete failing input — table `["wa", "wb"]`, enum value
with underlying integer 2 — the `enum.h` variant does NOT fail: it
silently returns the empty string, contrary to the claim; the `part_000`
variant throws the OutOfRange `std::invalid_argument` whose message
carries the offending index and the valid range. -/
theorem to_string_out_of_range_silent_empty :
    enum_to_string ["wa", "wb"] 2 = ("") ∧
    enum_strings.to_string ["wa", "wb"] 2 =
      Except.error (EnumError.outOfRange (outOfRangeMsg 2 2)) ∧
    outOfRangeMsg 2 2 = ("Invalid value 2. Valid range is 0..1") :=
  ⟨rfl, rfl, by decide⟩

/-- C4.  Lookup semantics of `from_string` on success: for a string `s`
occurring in the table, both variants return the enumerator whose integer
value is the smallest index `n` with `table[n] = s`: the entry at the
returned index equals `s`, every earlier entry differs from `s`, and the
`part_000` variant succeeds with the same index as the `enum.h` one. -/
theorem from_string_first_match (names : List String) (s : String)
    (h : s ∈ names) :
    names.getD (enum_from_string names s) dflt = s ∧
    (∀ m : Nat, m < enum_from_string names s → names.getD m dflt ≠ s) ∧
    enum_strings.from_string names s = Except.ok (enum_from_string names s) := by
  have he : enum_from_string names s = scan names s :=
    enum_from_string_eq_scan names s h
  refine ⟨?_, ?_, ?_⟩
  · rw [he]; exact getD_scan names s h
  · intro m hm
    rw [he] at hm
    exact scan_first names s m hm
  · rw [he]; exact enum_strings_from_string_ok names s h

/-- Witness for C4 at the table `["wa", "wb"]` and the string `"wb"`. -/
theorem from_string_first_match_witness :
    ("wb" : String) ∈ (["wa", "wb"] : List String) ∧
    ((["wa", "wb"] : List String).getD (enum_from_string ["wa", "wb"] ("wb")) dflt = "wb" ∧
     (∀ m : Nat, m < enum_from_string ["wa", "wb"] ("wb") →
        (["wa", "wb"] : List String).getD m dflt ≠ "wb") ∧
     enum_strings.from_string ["wa", "wb"] ("wb") =
       Except.ok (enum_from_string ["wa", "wb"] ("wb"))) :=
  ⟨by decide, from_string_first_match ["wa", "wb"] ("wb") (by decide)⟩

/-- C5.  Lookup semantics of `to_string` on success: for an underlying
value `i` with `i < table.length`, both variants return the `i`-th name
supplied at the association declaration (the `enum.h` variant reads it
from the table rebuilt by `to_array`, which preserves the declared
list). -/
theorem to_string_in_range (names : List String) (i : Nat)
    (hi : i < names.length) :
    enum_to_string names i = names.getD i dflt ∧
    enum_strings.to_string names i = Except.ok (names.getD i dflt) ∧
    EnumMetaInfo.Info names = names :=
  ⟨enum_to_string_eq_getD names i hi, enum_strings_to_string_ok names i hi,
    to_array_eq names⟩

/-- Witness for C5 at the table `["wa", "wb"]` and index 0. -/
theorem to_string_in_range_witness :
    0 < (["wa", "wb"] : List String).length ∧
    (enum_to_string ["wa", "wb"] 0 = (["wa", "wb"] : List String).getD 0 dflt ∧
     enum_strings.to_string ["wa", "wb"] 0 =
       Except.ok ((["wa", "wb"] : List String).getD 0 dflt) ∧
     EnumMetaInfo.Info ["wa", "wb"] = ["wa", "wb"]) :=
  ⟨by decide, to_string_in_range ["wa", "wb"] 0 (by decide)⟩

/-- C6.  Default-table fallback: when no association was declared, the
primary `EnumMetaInfo` template yields a well-defined zero-length table
(it returns, never fails); consequently every `enum_to_string` call on
such a type satisfies the out-of-range guard `table.length <= index` and
produces the out-of-range result, and every `enum_from_string` call has
its scan run off the table end (`scan = length`, the not-found condition)
and produces the not-found result. -/
theorem default_table_fallback :
    EnumMetaInfo.defaultInfo = ([] : List String) ∧
    (∀ i : Nat,
      (EnumMetaInfo.Info EnumMetaInfo.defaultInfo).length ≤ i ∧
      enum_to_string EnumMetaInfo.defaultInfo i = dflt) ∧
    (∀ s : String,
      scan (EnumMetaInfo.Info EnumMetaInfo.defaultInfo) s =
        (EnumMetaInfo.Info EnumMetaInfo.defaultInfo).length ∧
      enum_from_string EnumMetaInfo.defaultInfo s = 0) := by
  refine ⟨rfl, fun i => ⟨Nat.zero_le i, ?_⟩, fun s => ⟨rfl, rfl⟩⟩
  simp [enum_to_string, EnumMetaInfo.Info, EnumMetaInfo.defaultInfo, to_array]

/-- C7 counterexample.  At the concrete input — table `["wa", "wb"]`,
exhausted source (no token) — the `part_000` stream extraction yields the
UnknownName `std::invalid_argument` for the empty string: exactly the
result the unrecognized empty token produces, and an `unknownName`-class
error rather than any distinct SourceExhausted condition (no such
condition exists in the code). -/
theorem stream_extract_exhausted_conflated :
    stream_extract ["wa", "wb"] none =
      Except.error (EnumError.unknownName (unknownNameMsg (""))) ∧
    stream_extract ["wa", "wb"] none = stream_extract ["wa", "wb"] (some ("")) ∧
    stream_extract_h ["wa", "wb"] none = 0 :=
  ⟨rfl, rfl, rfl⟩

/-- C7 amended.  When the input source cannot supply a token, the
generated `operator>>` of both variants simply calls `from_string` on the
(value-initialized, empty) token: the `part_000` variant, whenever the
empty string is not a table entry, raises the same UnknownName
(invalid-argument) error an unrecognized token produces, carrying the
empty string — no distinct SourceExhausted condition is surfaced — and
the `enum.h` variant silently assigns `enum_from_string` of the empty
string. -/
theorem stream_extract_exhausted_amended (names : List String)
    (h : dflt ∉ names) :
    stream_extract names none =
      Except.error (EnumError.unknownName (unknownNameMsg dflt)) ∧
    stream_extract names none = enum_strings.from_string names dflt ∧
    stream_extract_h names none = enum_from_string names dflt := by
  refine ⟨?_, rfl, rfl⟩
  show enum_strings.from_string names dflt =
    Except.error (EnumError.unknownName (unknownNameMsg dflt))
  simp only [enum_strings.from_string]
  rw [if_pos (scan_eq_length_of_not_mem names dflt h)]

/-- Witness for the amended C7 at the table `["wa", "wb"]`. -/
theorem stream_extract_exhausted_amended_witness :
    dflt ∉ (["wa", "wb"] : List String) ∧
    (stream_extract ["wa", "wb"] none =
       Except.error (EnumError.unknownName (unknownNameMsg dflt)) ∧
     stream_extract ["wa", "wb"] none = enum_strings.from_string ["wa", "wb"] dflt ∧
     stream_extract_h ["wa", "wb"] none = enum_from_string ["wa", "wb"] dflt) :=
  ⟨by decide, stream_extract_exhausted_amended ["wa", "wb"] (by decide)⟩

/-- C8.  Table-builder correctness: for every ordered list of `N` input
strings, `to_array` produces a sequence of exactly `N` elements whose
`i`-th element equals the `i`-th input string, and the empty list yields
the zero-length table. -/
theorem to_array_builder (names : List String) :
    (to_array names).length = names.length ∧
    (∀ i : Nat, i < names.length →
      (to_array names).getD i dflt = names.getD i dflt) ∧
    to_array ([] : List String) = [] :=
  ⟨by rw [to_array_eq], fun i _ => by rw [to_array_eq], rfl⟩

/-- Witness for C8 at the table `["wa", "wb"]` and index 1. -/
theorem to_array_builder_witness :
    (to_array ["wa", "wb"]).length = (["wa", "wb"] : List String).length ∧
    (1 < (["wa", "wb"] : List String).length →
      (to_array ["wa", "wb"]).getD 1 dflt =
        (["wa", "wb"] : List String).getD 1 dflt) ∧
    to_array ([] : List String) = [] :=
  ⟨(to_array_builder ["wa", "wb"]).1,
   fun h => (to_array_builder ["wa", "wb"]).2.1 1 h,
   (to_array_builder ["wa", "wb"]).2.2⟩

/-- C9.  Determinism of `to_string`: two calls with the same enum value
and the same declared table — each call modelled as a full evaluation,
the `enum.h` variant rebuilding its table through `EnumMetaInfo.Info` —
return the same result (same string on success, same result on the error
path), in both variants; the embedding is a pure function of the value
and the declared names because the source mutates no observable state. -/
theorem to_string_deterministic (names1 names2 : List String)
    (i1 i2 : Nat) (he : names1 = names2) (hi : i1 = i2) :
    enum_to_string names1 i1 = enum_to_string names2 i2 ∧
    enum_strings.to_string names1 i1 = enum_strings.to_string names2 i2 ∧
    EnumMetaInfo.Info names1 = EnumMetaInfo.Info names2 := by
  subst he; subst hi
  exact ⟨rfl, rfl, rfl⟩

/-- Witness for C9 at the table `["wa", "wb"]` and index 1. -/
theorem to_string_deterministic_witness :
    enum_to_string ["wa", "wb"] 1 = enum_to_string ["wa", "wb"] 1 ∧
    enum_strings.to_string ["wa", "wb"] 1 = enum_strings.to_string ["wa", "wb"] 1 ∧
    EnumMetaInfo.Info ["wa", "wb"] = EnumMetaInfo.Info ["wa", "wb"] :=
  to_string_deterministic ["wa", "wb"] ["wa", "wb"] 1 1 rfl rfl

/-- C10.  Agreement of the two header variants on valid inputs: given the
same declared name list, (a) for every underlying value in
`[0, names.length)` the `part_000` `to_string` succeeds with exactly the
string the `enum.h` `enum_to_string` returns, and (b) for every string in
the list the `part_000` `from_string` succeeds with exactly the ordinal
the `enum.h` `enum_from_string` returns. -/
theorem variants_agree (names : List String) :
    (∀ i : Nat, i < names.length →
      enum_strings.to_string names i = Except.ok (enum_to_string names i)) ∧
    (∀ s : String, s ∈ names →
      enum_strings.from_string names s = Except.ok (enum_from_string names s)) := by
  constructor
  · intro i hi
    rw [enum_strings_to_string_ok names i hi, enum_to_string_eq_getD names i hi]
  · intro s hs
    rw [enum_strings_from_string_ok names s hs, enum_from_string_eq_scan names s hs]

/-- Witness for C10 at the table `["wa", "wb"]`, index 0 and string `"wb"`. -/
theorem variants_agree_witness :
    (0 < (["wa", "wb"] : List String).length →
      enum_strings.to_string ["wa", "wb"] 0 =
        Except.ok (enum_to_string ["wa", "wb"] 0)) ∧
    (("wb" : String) ∈ (["wa", "wb"] : List String) →
      enum_strings.from_string ["wa", "wb"] ("wb") =
        Except.ok (enum_from_string ["wa", "wb"] ("wb"))) :=
  ⟨fun h => (variants_agree ["wa", "wb"]).1 0 h,
   fun h => (variants_agree ["wa", "wb"]).2 ("wb") h⟩
